import Mathlib

/-!
Shallow embedding of the eduty-api workspace domain service
(`WorkspacesService`, src/unnamed/part_006) and the entity rows it
persists.  Database tables are modelled as lists of rows inside a single
state record `St`; TypeORM `findOne` becomes `List.find?` (first match),
`remove (row)` becomes `List.eraseP` (erase the single found row),
`remove (rows)` / `delete (criteria)` become `List.filter` with the
negated criteria, and `save` of a fresh entity appends a row whose
generated id is drawn from a `nextId` counter.  Timestamps are modelled
as `Nat` (comparisons mirror SQL date comparisons); the per-call clock is
an explicit `now : Nat` argument.  External identity-provider lookups
(`AuthService.getUserById` / `getUserByEmail`, src/unnamed/part_002)
always resolve to a user or to null - every failure path in that service
is caught and returns null - so they are modelled as an environment of
total functions into `Option UserRec`.
-/

namespace Eduty

/-- HTTP-level error taxonomy thrown by the service (`NotFoundException`,
`ForbiddenException`, `ConflictException`, `BadRequestException`).
`internal` marks a place where the source would crash dereferencing a
missing relation that the database's foreign keys rule out. -/
inductive Err where
  | notFound
  | forbidden
  | conflict
  | badRequest
  | internal
deriving DecidableEq

/-- `EnrollmentRequestStatus` (src/unnamed/part_009). -/
inductive ReqStatus where
  | pending
  | approved
  | rejected
deriving DecidableEq

/-- `RosterStatus` (src/unnamed/part_008). -/
inductive RStatus where
  | draft
  | published
deriving DecidableEq

/-- `LeaveRequestStatus` (leave-request entity). -/
inductive LStatus where
  | pending
  | approved
  | rejected
deriving DecidableEq

/-- `InvitationStatus` (src/src/workspaces/invitation.entity.ts). -/
inductive InvStatus where
  | pending
  | accepted
  | rejected
deriving DecidableEq

/-- A `Workspace` row: id (uuid string), name, ownerId, createdAt. -/
structure WorkspaceRow where
  id : String
  name : String
  ownerId : String
  createdAt : Nat
deriving DecidableEq

/-- An `Enrollment` row, unique on (workspaceId, userId); the surrogate
uuid id plays no role in the service logic and is omitted. -/
structure EnrollmentRow where
  workspaceId : String
  userId : String
  enrolledAt : Nat
deriving DecidableEq

/-- An `EnrollmentRequest` row. -/
structure EnrollmentRequestRow where
  id : Nat
  workspaceId : String
  userId : String
  status : ReqStatus
  createdAt : Nat
deriving DecidableEq

/-- A `UserFavorite` row; at most one per user is the intended invariant. -/
structure FavoriteRow where
  userId : String
  workspaceId : String
deriving DecidableEq

/-- An `Invitation` row. -/
structure InvitationRow where
  id : Nat
  workspaceId : String
  inviterId : String
  inviteeEmail : String
  status : InvStatus
deriving DecidableEq

/-- A `Roster` row, unique on (workspaceId, month, year). -/
structure RosterRow where
  id : Nat
  workspaceId : String
  month : Nat
  year : Nat
  status : RStatus
  publishedAt : Option Nat
  publishedBy : Option String
  createdAt : Nat
  updatedAt : Nat
deriving DecidableEq

/-- A `RosterAssignment` row; the service never reads its surrogate id,
so assignment rows are identified by their content. -/
structure RosterAssignmentRow where
  rosterId : Nat
  userId : String
  day : Nat
  shiftPeriod : String
  dutyType : String
  isOvertime : Bool
deriving DecidableEq

/-- A `LeaveRequest` row; startDate/endDate are inclusive dates. -/
structure LeaveRequestRow where
  id : Nat
  workspaceId : String
  userId : String
  startDate : Nat
  endDate : Nat
  status : LStatus
deriving DecidableEq

/-- The persistent store: one list per table plus the id generator. -/
structure St where
  workspaces : List WorkspaceRow
  enrollments : List EnrollmentRow
  enrollmentRequests : List EnrollmentRequestRow
  favorites : List FavoriteRow
  invitations : List InvitationRow
  rosters : List RosterRow
  rosterAssignments : List RosterAssignmentRow
  leaveRequests : List LeaveRequestRow
  nextId : Nat
deriving DecidableEq

deriving instance DecidableEq for Except

/-- A user record as returned by the identity provider. -/
structure UserRec where
  id : String
  email : String
deriving DecidableEq

/-- The identity-provider environment.  `AuthService.getUserById` and
`getUserByEmail` (src/unnamed/part_002) catch every internal failure and
return null, so both are total functions into `Option UserRec`. -/
structure AuthEnv where
  getUserById : String → Option UserRec
  getUserByEmail : String → Option UserRec

/-- Hexadecimal digit as accepted by the UUID regex with its
case-insensitive flag: `[0-9a-fA-F]`. -/
def isHexDigit (c : Char) : Bool :=
  (decide (48 ≤ c.toNat) && decide (c.toNat ≤ 57)) ||
  (decide (97 ≤ c.toNat) && decide (c.toNat ≤ 102)) ||
  (decide (65 ≤ c.toNat) && decide (c.toNat ≤ 70))

/-- Split a character list at every hyphen. -/
def splitOnDash : List Char → List (List Char)
  | [] => [[]]
  | c :: rest =>
    let r := splitOnDash rest
    if c == '-' then [] :: r
    else
      match r with
      | [] => [[c]]
      | g :: gs => (c :: g) :: gs

/-- The UUID test of `searchWorkspaces` (part_006 lines 161-164), the
regex 8-4-4-4-12 of hex digits separated by hyphens, case-insensitive. -/
def isUuidShaped (q : String) : Bool :=
  match splitOnDash q.data with
  | [a, b, c, d, e] =>
    a.length == 8 && b.length == 4 && c.length == 4 && d.length == 4 &&
      e.length == 12 &&
      (a ++ b ++ c ++ d ++ e).all isHexDigit
  | _ => false

/-- Does the first list start with the second? -/
def listStartsWith : List Char → List Char → Bool
  | _, [] => true
  | [], _ :: _ => false
  | c :: cs, d :: ds => c == d && listStartsWith cs ds

/-- Is the needle a contiguous sublist of the haystack? -/
def listContainsSub (needle : List Char) : List Char → Bool
  | [] => needle.isEmpty
  | c :: rest => listStartsWith (c :: rest) needle || listContainsSub needle rest

/-- SQL `name LIKE '%query%'` on PostgreSQL (the configured database,
src/unnamed/part_010): a case-sensitive substring test.  (Wildcard
characters inside the query are not modelled; no claim uses them.) -/
def likeContains (name q : String) : Bool :=
  listContainsSub q.data name.data

/-- ASCII lowercasing of one character (JS `toLowerCase` on the ASCII
emails the claims concern). -/
def lowerChar (c : Char) : Char :=
  if 65 ≤ c.toNat ∧ c.toNat ≤ 90 then Char.ofNat (c.toNat + 32) else c

/-- Lowercase a string characterwise. -/
def lowerStr (s : String) : String := ⟨s.data.map lowerChar⟩

/-- Whitespace as trimmed by JS `trim`. -/
def isWs (c : Char) : Bool := c == ' ' || c == '\t' || c == '\n' || c == '\r'

/-- Strip leading and trailing whitespace. -/
def trimStr (s : String) : String :=
  ⟨((s.data.dropWhile isWs).reverse.dropWhile isWs).reverse⟩

/-- Email normalization of `createInvitation`:
`inviteeEmail.toLowerCase().trim()` (part_006 line 906). -/
def normalizeEmail (e : String) : String := trimStr (lowerStr e)

/-- `enrollmentRepository.findOne({where:{userId}, order:{enrolledAt:'ASC'}})`:
the user's enrollment with the smallest `enrolledAt` (first listed wins a
tie, as SQL leaves tie order unspecified). -/
def findOldestEnrollment (s : St) (userId : String) : Option EnrollmentRow :=
  (s.enrollments.filter (fun e => e.userId == userId)).foldl
    (fun acc e =>
      match acc with
      | none => some e
      | some b => if e.enrolledAt < b.enrolledAt then some e else acc)
    none

/-- `WorkspacesService.autoSetFirstFavorite` (part_006 lines 818-844):
if the user has no favorite, point one at their oldest enrollment. -/
def autoSetFirstFavorite (s : St) (userId : String) : St :=
  match s.favorites.find? (fun f => f.userId == userId) with
  | some _ => s
  | none =>
    match findOldestEnrollment s userId with
    | none => s
    | some e =>
      { s with favorites := s.favorites ++ [⟨userId, e.workspaceId⟩] }

/-- `WorkspacesService.shiftFavoriteToNext` (part_006 lines 846-878):
if the removed workspace was the favorite, repoint it at the oldest
enrollment still on file, or delete the favorite when none is left. -/
def shiftFavoriteToNext (s : St) (userId removedWorkspaceId : String) : St :=
  match s.favorites.find? (fun f => f.userId == userId) with
  | none => s
  | some fav =>
    if fav.workspaceId == removedWorkspaceId then
      match findOldestEnrollment s userId with
      | some e =>
        let favs := s.favorites.map
          (fun f => if f.userId == userId then (⟨userId, e.workspaceId⟩ : FavoriteRow) else f)
        { s with favorites := favs }
      | none =>
        { s with favorites := s.favorites.eraseP (fun f => f.userId == userId) }
    else s

/-- `WorkspacesService.setFavoriteWorkspace` (part_006 lines 734-772). -/
def setFavoriteWorkspace (s : St) (workspaceId userId : String) :
    Except Err (FavoriteRow × St) :=
  match s.enrollments.find?
      (fun e => e.workspaceId == workspaceId && e.userId == userId) with
  | none => .error .forbidden
  | some _ =>
    let fav : FavoriteRow := ⟨userId, workspaceId⟩
    match s.favorites.find? (fun f => f.userId == userId) with
    | some _ =>
      let favs := s.favorites.map (fun f => if f.userId == userId then fav else f)
      .ok (fav, { s with favorites := favs })
    | none =>
      .ok (fav, { s with favorites := s.favorites ++ [fav] })

/-- `WorkspacesService.removeFavoriteWorkspace` (part_006 lines 807-816). -/
def removeFavoriteWorkspace (s : St) (userId : String) : St :=
  match s.favorites.find? (fun f => f.userId == userId) with
  | some _ =>
    { s with favorites := s.favorites.eraseP (fun f => f.userId == userId) }
  | none => s

/-- Shape of the favorite view returned by `getFavoriteWorkspace`. -/
structure FavoriteView where
  workspaceId : String
  workspaceName : String
deriving DecidableEq

/-- `WorkspacesService.getFavoriteWorkspace` (part_006 lines 774-805):
a read that self-heals a stale favorite by deleting it.  The workspace
name comes through the foreign-key-backed relation; a missing workspace
row is rendered as the empty name rather than a crash. -/
def getFavoriteWorkspace (s : St) (userId : String) :
    Option FavoriteView × St :=
  match s.favorites.find? (fun f => f.userId == userId) with
  | none => (none, s)
  | some fav =>
    match s.enrollments.find?
        (fun e => e.workspaceId == fav.workspaceId && e.userId == userId) with
    | none =>
      (none, { s with favorites := s.favorites.eraseP (fun f => f.userId == userId) })
    | some _ =>
      (some ⟨fav.workspaceId,
        (((s.workspaces.find? (fun w => w.id == fav.workspaceId)).map
            (fun w => w.name)).getD "")⟩, s)

/-- Result of `requestEnrollment`: the owner path returns the Enrollment,
the regular path the pending request. -/
inductive EnrollOutcome where
  | enrolled (e : EnrollmentRow)
  | requested (r : EnrollmentRequestRow)
deriving DecidableEq

/-- `WorkspacesService.requestEnrollment` (part_006 lines 182-266). -/
def requestEnrollment (s : St) (workspaceId userId : String) (now : Nat) :
    Except Err (EnrollOutcome × St) :=
  match s.workspaces.find? (fun w => w.id == workspaceId) with
  | none => .error .notFound
  | some w =>
    match s.enrollments.find?
        (fun e => e.workspaceId == workspaceId && e.userId == userId) with
    | some _ => .error .conflict
    | none =>
      match s.enrollmentRequests.find?
          (fun r => r.workspaceId == workspaceId && r.userId == userId &&
            r.status == ReqStatus.pending) with
      | some _ => .error .conflict
      | none =>
        if w.ownerId == userId then
          let enr : EnrollmentRow := ⟨workspaceId, userId, now⟩
          let s1 := { s with enrollments := s.enrollments ++ [enr] }
          let req : EnrollmentRequestRow :=
            ⟨s1.nextId, workspaceId, userId, ReqStatus.approved, now⟩
          let s2 := { s1 with
            enrollmentRequests := s1.enrollmentRequests ++ [req],
            nextId := s1.nextId + 1 }
          .ok (.enrolled enr, autoSetFirstFavorite s2 userId)
        else
          let req : EnrollmentRequestRow :=
            ⟨s.nextId, workspaceId, userId, ReqStatus.pending, now⟩
          .ok (.requested req, { s with
            enrollmentRequests := s.enrollmentRequests ++ [req],
            nextId := s.nextId + 1 })

/-- Mark the request with the given id approved (the `request.status =
APPROVED; save(request)` step). -/
def markRequestApproved (s : St) (requestId : Nat) : St :=
  let reqs := s.enrollmentRequests.map
    (fun r => if r.id == requestId then { r with status := ReqStatus.approved } else r)
  { s with enrollmentRequests := reqs }

/-- `WorkspacesService.approveEnrollmentRequest` (part_006 lines 312-372).
The request's `workspace` relation is foreign-key backed; its absence is
modelled as `Err.internal`. -/
def approveEnrollmentRequest (s : St) (requestId : Nat) (ownerId : String)
    (now : Nat) : Except Err (EnrollmentRow × St) :=
  match s.enrollmentRequests.find? (fun r => r.id == requestId) with
  | none => .error .notFound
  | some req =>
    match s.workspaces.find? (fun w => w.id == req.workspaceId) with
    | none => .error .internal
    | some w =>
      if w.ownerId != ownerId then .error .forbidden
      else if req.status != ReqStatus.pending then .error .badRequest
      else
        match s.enrollments.find?
            (fun e => e.workspaceId == req.workspaceId && e.userId == req.userId) with
        | some e => .ok (e, markRequestApproved s requestId)
        | none =>
          let enr : EnrollmentRow := ⟨req.workspaceId, req.userId, now⟩
          let s1 := { s with enrollments := s.enrollments ++ [enr] }
          let s2 := markRequestApproved s1 requestId
          .ok (enr, autoSetFirstFavorite s2 req.userId)

/-- `WorkspacesService.unenrollFromWorkspace` (part_006 lines 443-481):
remove the caller's enrollment, purge every enrollment-request row for
the pair, then shift the favorite. -/
def unenrollFromWorkspace (s : St) (workspaceId userId : String) :
    Except Err St :=
  match s.enrollments.find?
      (fun e => e.workspaceId == workspaceId && e.userId == userId) with
  | none => .error .notFound
  | some _ =>
    let enrs := s.enrollments.eraseP
      (fun e => e.workspaceId == workspaceId && e.userId == userId)
    let s1 := { s with enrollments := enrs }
    let reqs := s1.enrollmentRequests.filter
      (fun r => !(r.workspaceId == workspaceId && r.userId == userId))
    let s2 := { s1 with enrollmentRequests := reqs }
    .ok (shiftFavoriteToNext s2 userId workspaceId)

/-- `WorkspacesService.removeUserFromWorkspace` (part_006 lines 483-541). -/
def removeUserFromWorkspace (s : St) (workspaceId targetUserId ownerId : String) :
    Except Err St :=
  match s.workspaces.find? (fun w => w.id == workspaceId) with
  | none => .error .notFound
  | some w =>
    if w.ownerId != ownerId then .error .forbidden
    else if targetUserId == ownerId then .error .badRequest
    else
      match s.enrollments.find?
          (fun e => e.workspaceId == workspaceId && e.userId == targetUserId) with
      | none => .error .notFound
      | some _ =>
        let enrs := s.enrollments.eraseP
          (fun e => e.workspaceId == workspaceId && e.userId == targetUserId)
        let s1 := { s with enrollments := enrs }
        let reqs := s1.enrollmentRequests.filter
          (fun r => !(r.workspaceId == workspaceId && r.userId == targetUserId))
        let s2 := { s1 with enrollmentRequests := reqs }
        .ok (shiftFavoriteToNext s2 targetUserId workspaceId)

/-- The self-invite check of `createInvitation` (part_006 lines 908-917)
as the body of its try block: look the inviter up, and throw BadRequest
when the inviter's own (lowercased) email equals the normalized invitee
email.  The surrounding catch swallows every error this produces. -/
def selfInviteCheck (env : AuthEnv) (inviterId normalizedEmail : String) :
    Except Err Unit :=
  match env.getUserById inviterId with
  | some u =>
    if lowerStr u.email == normalizedEmail then .error .badRequest else .ok ()
  | none => .ok ()

/-- The invitee-already-enrolled check of `createInvitation` (part_006
lines 919-945) as the body of its try block; the surrounding catch
rethrows only `ConflictException`. -/
def inviteeEnrolledCheck (env : AuthEnv) (s : St)
    (workspaceId normalizedEmail : String) : Except Err Unit :=
  match env.getUserByEmail normalizedEmail with
  | some u =>
    match s.enrollments.find?
        (fun e => e.workspaceId == workspaceId && e.userId == u.id) with
    | some _ => .error .conflict
    | none => .ok ()
  | none => .ok ()

/-- Tail of `createInvitation` after the two try/catch blocks: the
pending-invitation dedup check and the insert (part_006 lines 947-975). -/
def createInvitationTail (s : St) (workspaceId inviterId normalizedEmail : String) :
    Except Err (InvitationRow × St) :=
  match s.invitations.find?
      (fun i => i.workspaceId == workspaceId && i.inviteeEmail == normalizedEmail &&
        i.status == InvStatus.pending) with
  | some _ => .error .conflict
  | none =>
    let inv : InvitationRow :=
      ⟨s.nextId, workspaceId, inviterId, normalizedEmail, InvStatus.pending⟩
    .ok (inv, { s with invitations := s.invitations ++ [inv], nextId := s.nextId + 1 })

/-- `WorkspacesService.createInvitation` (part_006 lines 887-976).  The
first try/catch logs and continues whatever `selfInviteCheck` produced -
including the BadRequestException it throws on an email match - so that
check has no observable effect.  The second try/catch rethrows exactly
the ConflictException. -/
def createInvitation (env : AuthEnv) (s : St)
    (workspaceId inviteeEmail inviterId : String) :
    Except Err (InvitationRow × St) :=
  match s.workspaces.find? (fun w => w.id == workspaceId) with
  | none => .error .notFound
  | some w =>
    if w.ownerId != inviterId then .error .forbidden
    else
      let normalizedEmail := normalizeEmail inviteeEmail
      match selfInviteCheck env inviterId normalizedEmail with
      | .error _ =>
        -- catch: warn and continue (the error is swallowed)
        match inviteeEnrolledCheck env s workspaceId normalizedEmail with
        | .error .conflict => .error .conflict
        | _ => createInvitationTail s workspaceId inviterId normalizedEmail
      | .ok _ =>
        match inviteeEnrolledCheck env s workspaceId normalizedEmail with
        | .error .conflict => .error .conflict
        | _ => createInvitationTail s workspaceId inviterId normalizedEmail

/-- Stable insertion of a workspace into a list sorted by `createdAt`
descending (SQL `ORDER BY createdAt DESC`). -/
def insertByCreatedAtDesc (w : WorkspaceRow) :
    List WorkspaceRow → List WorkspaceRow
  | [] => [w]
  | x :: xs =>
    if x.createdAt < w.createdAt then w :: x :: xs
    else x :: insertByCreatedAtDesc w xs

/-- Sort workspaces newest-first by `createdAt`. -/
def sortByCreatedAtDesc (l : List WorkspaceRow) : List WorkspaceRow :=
  l.foldr insertByCreatedAtDesc []

/-- `WorkspacesService.searchWorkspaces` (part_006 lines 157-180). -/
def searchWorkspaces (s : St) (query : String) : List WorkspaceRow :=
  if isUuidShaped query then
    match s.workspaces.find? (fun w => w.id == query) with
    | some w => [w]
    | none => []
  else
    (sortByCreatedAtDesc (s.workspaces.filter (fun w => likeContains w.name query))).take 20

/-- Input assignment cell of `SaveRosterDto` (src/unnamed/part_004). -/
structure AssignmentInput where
  userId : String
  day : Nat
  shiftPeriod : String
  dutyType : String
  isOvertime : Bool
deriving DecidableEq

/-- The assignment rows `saveRoster` inserts for a roster: one per input
whose dutyType is non-empty (part_006 lines 1229-1240). -/
def mkAssignmentRows (rosterId : Nat) (assignments : List AssignmentInput) :
    List RosterAssignmentRow :=
  (assignments.filter (fun a => a.dutyType != "")).map
    (fun a => ⟨rosterId, a.userId, a.day, a.shiftPeriod, a.dutyType, a.isOvertime⟩)

/-- Delete all assignment rows of the roster, then insert the fresh ones
(part_006 lines 1225-1244). -/
def replaceAssignments (s : St) (r : RosterRow)
    (assignments : List AssignmentInput) : RosterRow × St :=
  let s1 := { s with rosterAssignments :=
    s.rosterAssignments.filter (fun a => !(a.rosterId == r.id)) }
  (r, { s1 with rosterAssignments :=
    s1.rosterAssignments ++ mkAssignmentRows r.id assignments })

/-- `WorkspacesService.saveRoster` (part_006 lines 1183-1251). -/
def saveRoster (s : St) (workspaceId : String) (month year : Nat)
    (assignments : List AssignmentInput) (userId : String) (now : Nat) :
    Except Err (RosterRow × St) :=
  match s.workspaces.find? (fun w => w.id == workspaceId) with
  | none => .error .notFound
  | some w =>
    if w.ownerId != userId then .error .forbidden
    else
      match s.rosters.find?
          (fun r => r.workspaceId == workspaceId && r.month == month &&
            r.year == year) with
      | some r =>
        let r1 := { r with updatedAt := now }
        let rs := s.rosters.map (fun x => if x.id == r.id then r1 else x)
        let s1 := { s with rosters := rs }
        .ok (replaceAssignments s1 r1 assignments)
      | none =>
        let r1 : RosterRow :=
          ⟨s.nextId, workspaceId, month, year, RStatus.draft, none, none, now, now⟩
        let s1 := { s with rosters := s.rosters ++ [r1], nextId := s.nextId + 1 }
        .ok (replaceAssignments s1 r1 assignments)

/-- Is there a pending leave request of this user in this workspace whose
inclusive range overlaps the queried one (part_006 lines 1527-1538)? -/
def overlapsPendingLeave (s : St) (workspaceId userId : String)
    (startDate endDate : Nat) : Bool :=
  s.leaveRequests.any
    (fun l => l.workspaceId == workspaceId && l.userId == userId &&
      l.status == LStatus.pending &&
      decide (l.startDate ≤ endDate) && decide (startDate ≤ l.endDate))

/-- `WorkspacesService.requestLeave` (part_006 lines 1487-1562). -/
def requestLeave (s : St) (workspaceId userId : String)
    (startDate endDate : Nat) : Except Err (LeaveRequestRow × St) :=
  match s.workspaces.find? (fun w => w.id == workspaceId) with
  | none => .error .notFound
  | some _ =>
    match s.enrollments.find?
        (fun e => e.workspaceId == workspaceId && e.userId == userId) with
    | none => .error .forbidden
    | some _ =>
      if endDate < startDate then .error .badRequest
      else if overlapsPendingLeave s workspaceId userId startDate endDate then
        .error .conflict
      else
        let row : LeaveRequestRow :=
          ⟨s.nextId, workspaceId, userId, startDate, endDate, LStatus.pending⟩
        .ok (row, { s with leaveRequests := s.leaveRequests ++ [row], nextId := s.nextId + 1 })

/-- The store with every table empty. -/
def emptySt : St := ⟨[], [], [], [], [], [], [], [], 0⟩

/-- A workspace named `Alpha` for exercising the name search. -/
def wsAlpha : WorkspaceRow :=
  ⟨"11111111-1111-1111-1111-111111111111", "Alpha", "owner-1", 5⟩

/-- Store holding only the workspace `Alpha`. -/
def stAlpha : St := { emptySt with workspaces := [wsAlpha] }

/-- Claim C4: `searchWorkspaces` is claimed to match names
case-insensitively, but on the configured PostgreSQL database the
`Like` operator the code uses is case-sensitive: the query `alpha` does
not return the workspace named `Alpha` (the workspace's own comment
says "case-insensitive partial match", so the code contradicts its own
documentation).  The exact-case query and the UUID-shaped-query branch
behave as claimed: a syntactically valid UUID matching no workspace
yields the empty list, not an error. -/
theorem C4_search_like_is_case_sensitive :
    searchWorkspaces stAlpha "alpha" = [] ∧
    searchWorkspaces stAlpha "Alpha" = [wsAlpha] ∧
    searchWorkspaces stAlpha "22222222-2222-2222-2222-222222222222" = [] ∧
    searchWorkspaces stAlpha "11111111-1111-1111-1111-111111111111" = [wsAlpha] := by
  refine ⟨by decide, by decide, by decide, by decide⟩

/-- The workspace owner as the identity provider returns them. -/
def ownerRec : UserRec := ⟨"owner-1", "Owner@X.com"⟩

/-- Identity environment knowing exactly the owner, by id and by
normalized email. -/
def envOwner : AuthEnv :=
  ⟨fun uid => if uid == "owner-1" then some ownerRec else none,
   fun em => if em == "owner@x.com" then some ownerRec else none⟩

/-- A workspace owned by `owner-1`. -/
def wsOwned : WorkspaceRow := ⟨"w-1", "Ward One", "owner-1", 0⟩

/-- Store holding only `wsOwned`; the id counter starts at 7. -/
def stOwned : St := { emptySt with workspaces := [wsOwned], nextId := 7 }

/-- The invitation row the self-invitation ends up creating. -/
def selfInvRow : InvitationRow :=
  ⟨7, "w-1", "owner-1", "owner@x.com", InvStatus.pending⟩

/-- Claim C3: self-invitation is claimed to fail with BadRequest and
create no Invitation row.  The check does compute BadRequest (second
conjunct), but the try/catch around it swallows every error it throws -
the catch logs and continues without rethrowing - so the operation
proceeds and persists the invitation: the owner inviting their own
email address succeeds and stores a pending invitation row. -/
theorem C3_self_invitation_is_swallowed :
    createInvitation envOwner stOwned "w-1" "Owner@X.com" "owner-1" =
      .ok (selfInvRow, { stOwned with invitations := [selfInvRow], nextId := 8 }) ∧
    selfInviteCheck envOwner "owner-1" "owner@x.com" = .error .badRequest := by
  refine ⟨by decide, by decide⟩

/-- Claim C10: `getFavoriteWorkspace` self-heals a stale favorite.  With
no favorite on file it returns null and leaves the state unchanged; with
a favorite pointing at a workspace the user is no longer enrolled in it
deletes that favorite row and returns null; with a still-enrolled
favorite it returns the favorite's workspace and changes nothing. -/
theorem C10_getFavoriteWorkspace_self_heals (s : St) (u : String) :
    (s.favorites.find? (fun f => f.userId == u) = none →
      getFavoriteWorkspace s u = (none, s)) ∧
    (∀ fav, s.favorites.find? (fun f => f.userId == u) = some fav →
      s.enrollments.find?
          (fun e => e.workspaceId == fav.workspaceId && e.userId == u) = none →
      getFavoriteWorkspace s u =
        (none, { s with favorites := s.favorites.eraseP (fun f => f.userId == u) })) ∧
    (∀ fav e, s.favorites.find? (fun f => f.userId == u) = some fav →
      s.enrollments.find?
          (fun x => x.workspaceId == fav.workspaceId && x.userId == u) = some e →
      (getFavoriteWorkspace s u).2 = s ∧
        ∃ v, (getFavoriteWorkspace s u).1 = some v ∧
          v.workspaceId = fav.workspaceId) := by
  refine ⟨fun h => ?_, fun fav h1 h2 => ?_, fun fav e h1 h2 => ?_⟩
  · simp only [getFavoriteWorkspace, h]
  · simp only [getFavoriteWorkspace, h1, h2]
  · simp only [getFavoriteWorkspace, h1, h2]
    exact ⟨trivial, _, rfl, rfl⟩

/-- Store with a stale favorite: `u1` favors `w-1` but holds no
enrollment there. -/
def stStale : St := { emptySt with favorites := [⟨"u1", "w-1"⟩] }

/-- Witness for C10: on the concrete stale-favorite store the read
returns null and deletes the favorite row. -/
theorem C10_witness :
    getFavoriteWorkspace stStale "u1" =
      (none, { stStale with favorites :=
        stStale.favorites.eraseP (fun f => f.userId == "u1") }) :=
  (C10_getFavoriteWorkspace_self_heals stStale "u1").2.1
    ⟨"u1", "w-1"⟩ (by decide) (by decide)

/-- Workspace for the leave-request scenario. -/
def wsLeave : WorkspaceRow := ⟨"w1", "Ward", "own-1", 0⟩

/-- Store for the claimed leave scenario: `u1` is enrolled in `w1` and
holds a pending leave request over the inclusive dates
2024-01-10..2024-01-15 (dates encoded as yyyymmdd numbers). -/
def stLeave : St := { emptySt with
  workspaces := [wsLeave],
  enrollments := [⟨"w1", "u1", 1⟩],
  leaveRequests := [⟨0, "w1", "u1", 20240110, 20240115, LStatus.pending⟩],
  nextId := 1 }

/-- Claim C2: for an enrolled caller `requestLeave` fails BadRequest when
endDate < startDate, fails Forbidden when the caller is not enrolled, and
(for a valid range) fails Conflict exactly when some pending leave request
of the same user and workspace overlaps the new inclusive range - so
approved or rejected requests never block.  On the concrete scenario, a
new request 2024-01-14..2024-01-20 against a pending
2024-01-10..2024-01-15 conflicts, and 2024-01-16..2024-01-20 succeeds. -/
theorem C2_requestLeave_overlap_rules (s : St) (w u : String) (sd ed : Nat) :
    (∀ x, s.workspaces.find? (fun y => y.id == w) = some x →
      s.enrollments.find? (fun e => e.workspaceId == w && e.userId == u) = none →
      requestLeave s w u sd ed = .error .forbidden) ∧
    (∀ x e, s.workspaces.find? (fun y => y.id == w) = some x →
      s.enrollments.find? (fun e2 => e2.workspaceId == w && e2.userId == u) = some e →
      ((ed < sd → requestLeave s w u sd ed = .error .badRequest) ∧
       (sd ≤ ed →
        (requestLeave s w u sd ed = .error .conflict ↔
          ∃ l ∈ s.leaveRequests, l.workspaceId = w ∧ l.userId = u ∧
            l.status = LStatus.pending ∧ l.startDate ≤ ed ∧ sd ≤ l.endDate)))) ∧
    requestLeave stLeave "w1" "u1" 20240114 20240120 = .error .conflict ∧
    (∃ r s2, requestLeave stLeave "w1" "u1" 20240116 20240120 = .ok (r, s2)) := by
  refine ⟨fun x h1 h2 => ?_, fun x e h1 h2 => ⟨fun hlt => ?_, fun hle => ?_⟩,
    by decide,
    ⟨⟨1, "w1", "u1", 20240116, 20240120, LStatus.pending⟩,
     { stLeave with
       leaveRequests :=
         stLeave.leaveRequests ++ [⟨1, "w1", "u1", 20240116, 20240120, LStatus.pending⟩],
       nextId := 2 }, by decide⟩⟩
  · simp only [requestLeave, h1, h2]
  · simp only [requestLeave, h1, h2, if_pos hlt]
  · have hnot : ¬ ed < sd := by omega
    simp only [requestLeave, h1, h2, if_neg hnot]
    by_cases ho : overlapsPendingLeave s w u sd ed = true
    · rw [if_pos ho]
      simp only [overlapsPendingLeave, List.any_eq_true, Bool.and_eq_true,
        beq_iff_eq, decide_eq_true_eq] at ho
      constructor
      · intro _
        obtain ⟨l, hl, hc⟩ := ho
        exact ⟨l, hl, hc.1.1.1.1, hc.1.1.1.2, hc.1.1.2, hc.1.2, hc.2⟩
      · intro _; rfl
    · rw [if_neg ho]
      constructor
      · intro hc; exact absurd hc (by simp)
      · intro hex
        exfalso
        apply ho
        simp only [overlapsPendingLeave, List.any_eq_true, Bool.and_eq_true,
          beq_iff_eq, decide_eq_true_eq]
        obtain ⟨l, hl, hw', hu', hst, ha, hb⟩ := hex
        exact ⟨l, hl, ⟨⟨⟨⟨hw', hu'⟩, hst⟩, ha⟩, hb⟩⟩

/-- Witness for C2: the general rules applied on the concrete store -
an inverted range yields BadRequest and a non-overlapping range does not
conflict. -/
theorem C2_witness :
    requestLeave stLeave "w1" "u1" 20240120 20240114 = .error .badRequest :=
  (((C2_requestLeave_overlap_rules stLeave "w1" "u1" 20240120 20240114).2.1)
    wsLeave ⟨"w1", "u1", 1⟩ (by decide) (by decide)).1 (by omega)

theorem shiftFavoriteToNext_enrollments (s : St) (u w : String) :
    (shiftFavoriteToNext s u w).enrollments = s.enrollments := by
  unfold shiftFavoriteToNext
  repeat' split
  all_goals rfl

theorem shiftFavoriteToNext_enrollmentRequests (s : St) (u w : String) :
    (shiftFavoriteToNext s u w).enrollmentRequests = s.enrollmentRequests := by
  unfold shiftFavoriteToNext
  repeat' split
  all_goals rfl

theorem shiftFavoriteToNext_workspaces (s : St) (u w : String) :
    (shiftFavoriteToNext s u w).workspaces = s.workspaces := by
  unfold shiftFavoriteToNext
  repeat' split
  all_goals rfl

theorem filter_after_eraseP (p : α → Bool) (l : List α)
    (h : (l.filter p).length ≤ 1) : (l.eraseP p).filter p = [] := by
  induction l with
  | nil => simp
  | cons a t ih =>
    by_cases hp : p a
    · rw [List.eraseP_cons_of_pos hp]
      rw [List.filter_cons_of_pos hp] at h
      simp only [List.length_cons] at h
      have hz : (t.filter p).length = 0 := by omega
      exact List.length_eq_zero.mp hz
    · rw [List.eraseP_cons_of_neg hp, List.filter_cons_of_neg hp]
      rw [List.filter_cons_of_neg hp] at h
      exact ih h

theorem filter_of_filter_not (p : α → Bool) (l : List α) :
    (l.filter (fun a => !(p a))).filter p = [] := by
  induction l with
  | nil => simp
  | cons a t ih =>
    by_cases hp : p a <;> simp [hp, ih]

/-- Claim C7: `unenrollFromWorkspace` deletes the caller's Enrollment and
every EnrollmentRequest row of any status for the pair, fails NotFound
when no enrollment exists, and afterwards a `requestEnrollment` for the
same pair goes through cleanly (no Conflict) whenever the workspace
still exists. -/
theorem C7_unenroll_clean_slate (s : St) (w u : String) (n : Nat)
    (hone : (s.enrollments.filter
      (fun e2 => e2.workspaceId == w && e2.userId == u)).length ≤ 1) :
    (s.enrollments.find? (fun e => e.workspaceId == w && e.userId == u) = none →
      unenrollFromWorkspace s w u = .error .notFound) ∧
    (∀ e, s.enrollments.find? (fun e2 => e2.workspaceId == w && e2.userId == u) = some e →
      ∃ s1, unenrollFromWorkspace s w u = .ok s1 ∧
        s1.enrollments.filter (fun e2 => e2.workspaceId == w && e2.userId == u) = [] ∧
        s1.enrollmentRequests.filter (fun r => r.workspaceId == w && r.userId == u) = [] ∧
        (∀ x, s1.workspaces.find? (fun y => y.id == w) = some x →
          ∃ v s2, requestEnrollment s1 w u n = .ok (v, s2))) := by
  constructor
  · intro h
    simp only [unenrollFromWorkspace, h]
  · intro e he
    simp only [unenrollFromWorkspace, he]
    refine ⟨_, rfl, ?_, ?_, ?_⟩
    · rw [shiftFavoriteToNext_enrollments]
      exact filter_after_eraseP _ _ hone
    · rw [shiftFavoriteToNext_enrollmentRequests]
      exact filter_of_filter_not _ _
    · intro x hx
      have henr : (shiftFavoriteToNext
          { s with
            enrollments := s.enrollments.eraseP
              (fun e2 => e2.workspaceId == w && e2.userId == u),
            enrollmentRequests := s.enrollmentRequests.filter
              (fun r => !(r.workspaceId == w && r.userId == u)) } u w).enrollments.find?
          (fun e2 => e2.workspaceId == w && e2.userId == u) = none := by
        rw [shiftFavoriteToNext_enrollments]
        apply List.find?_eq_none.mpr
        intro a ha
        have : a ∈ (s.enrollments.eraseP
            (fun e2 => e2.workspaceId == w && e2.userId == u)).filter
            (fun e2 => e2.workspaceId == w && e2.userId == u) → False := by
          rw [filter_after_eraseP _ _ hone]; simp
        intro hpa
        exact this (List.mem_filter.mpr ⟨ha, hpa⟩)
      have hreq : (shiftFavoriteToNext
          { s with
            enrollments := s.enrollments.eraseP
              (fun e2 => e2.workspaceId == w && e2.userId == u),
            enrollmentRequests := s.enrollmentRequests.filter
              (fun r => !(r.workspaceId == w && r.userId == u)) } u w).enrollmentRequests.find?
          (fun r => r.workspaceId == w && r.userId == u &&
            r.status == ReqStatus.pending) = none := by
        rw [shiftFavoriteToNext_enrollmentRequests]
        apply List.find?_eq_none.mpr
        intro a ha
        have ha2 := (List.mem_filter.mp ha).2
        intro hpa
        rw [Bool.and_eq_true] at hpa
        rw [hpa.1] at ha2
        simp at ha2
      simp only [requestEnrollment, hx, henr, hreq]
      split
      · exact ⟨_, _, rfl⟩
      · exact ⟨_, _, rfl⟩

/-- Concrete store for the unenroll scenario: `u1` enrolled in `w1` with
an approved request on file and `w1` as favorite. -/
def stC7 : St := { emptySt with
  workspaces := [⟨"w1", "Ward", "own-1", 0⟩],
  enrollments := [⟨"w1", "u1", 3⟩],
  enrollmentRequests := [⟨0, "w1", "u1", ReqStatus.approved, 2⟩],
  favorites := [⟨"u1", "w1"⟩],
  nextId := 1 }

/-- Witness for C7 on the concrete store. -/
theorem C7_witness :
    ∃ s1, unenrollFromWorkspace stC7 "w1" "u1" = .ok s1 ∧
      s1.enrollments.filter (fun e2 => e2.workspaceId == "w1" && e2.userId == "u1") = [] ∧
      s1.enrollmentRequests.filter (fun r => r.workspaceId == "w1" && r.userId == "u1") = [] ∧
      (∀ x, s1.workspaces.find? (fun y => y.id == "w1") = some x →
        ∃ v s2, requestEnrollment s1 "w1" "u1" 9 = .ok (v, s2)) :=
  (C7_unenroll_clean_slate stC7 "w1" "u1" 9 (by decide)).2 ⟨"w1", "u1", 3⟩ (by decide)

theorem autoSetFirstFavorite_enrollments (s : St) (u : String) :
    (autoSetFirstFavorite s u).enrollments = s.enrollments := by
  unfold autoSetFirstFavorite
  repeat' split
  all_goals rfl

theorem autoSetFirstFavorite_enrollmentRequests (s : St) (u : String) :
    (autoSetFirstFavorite s u).enrollmentRequests = s.enrollmentRequests := by
  unfold autoSetFirstFavorite
  repeat' split
  all_goals rfl

/-- Claim C6: for the workspace owner (not yet enrolled, no pending
request) `requestEnrollment` immediately creates the Enrollment and an
already-approved EnrollmentRequest, returning the Enrollment, with no
pending request ever stored; for a non-owner it creates a single pending
request and a second call fails Conflict, leaving exactly one pending
request for the pair. -/
theorem C6_requestEnrollment_owner_and_dedup (s : St) (w u : String)
    (x : WorkspaceRow) (n n2 : Nat)
    (hwx : s.workspaces.find? (fun y => y.id == w) = some x)
    (henr : s.enrollments.find? (fun e => e.workspaceId == w && e.userId == u) = none)
    (hreq : s.enrollmentRequests.find?
      (fun r => r.workspaceId == w && r.userId == u &&
        r.status == ReqStatus.pending) = none) :
    (x.ownerId = u →
      ∃ s1, requestEnrollment s w u n = .ok (.enrolled ⟨w, u, n⟩, s1) ∧
        (⟨w, u, n⟩ : EnrollmentRow) ∈ s1.enrollments ∧
        (⟨s.nextId, w, u, ReqStatus.approved, n⟩ : EnrollmentRequestRow) ∈
          s1.enrollmentRequests ∧
        s1.enrollmentRequests.filter
          (fun r => r.workspaceId == w && r.userId == u &&
            r.status == ReqStatus.pending) = []) ∧
    (x.ownerId ≠ u →
      ∃ s1, requestEnrollment s w u n =
          .ok (.requested ⟨s.nextId, w, u, ReqStatus.pending, n⟩, s1) ∧
        (s1.enrollmentRequests.filter
          (fun r => r.workspaceId == w && r.userId == u &&
            r.status == ReqStatus.pending)).length = 1 ∧
        requestEnrollment s1 w u n2 = .error .conflict) := by
  have hfilter : s.enrollmentRequests.filter
      (fun r => r.workspaceId == w && r.userId == u &&
        r.status == ReqStatus.pending) = [] :=
    List.filter_eq_nil_iff.mpr (List.find?_eq_none.mp hreq)
  constructor
  · intro how
    simp only [requestEnrollment, hwx, henr, hreq]
    rw [if_pos (by simp [how])]
    refine ⟨_, rfl, ?_, ?_, ?_⟩
    · rw [autoSetFirstFavorite_enrollments]
      exact List.mem_append.mpr (Or.inr (List.mem_singleton.mpr rfl))
    · rw [autoSetFirstFavorite_enrollmentRequests]
      exact List.mem_append.mpr (Or.inr (List.mem_singleton.mpr rfl))
    · rw [autoSetFirstFavorite_enrollmentRequests]
      rw [List.filter_append, hfilter]
      simp
  · intro how
    simp only [requestEnrollment, hwx, henr, hreq]
    rw [if_neg (by simp [how])]
    refine ⟨_, rfl, ?_, ?_⟩
    · rw [List.filter_append, hfilter]
      simp
    · simp only [requestEnrollment, hwx, henr]
      rw [List.find?_append, hreq]
      simp

/-- Store with one workspace owned by `own-1` and nothing else. -/
def stC6 : St := { emptySt with
  workspaces := [⟨"w1", "Ward", "own-1", 0⟩], nextId := 5 }

/-- Witness for C6: the non-owner path on the concrete store - one
pending request after the first call, Conflict on the second. -/
theorem C6_witness :
    ∃ s1, requestEnrollment stC6 "w1" "u1" 4 =
        .ok (.requested ⟨5, "w1", "u1", ReqStatus.pending, 4⟩, s1) ∧
      (s1.enrollmentRequests.filter
        (fun r => r.workspaceId == "w1" && r.userId == "u1" &&
          r.status == ReqStatus.pending)).length = 1 ∧
      requestEnrollment s1 "w1" "u1" 8 = .error .conflict :=
  (C6_requestEnrollment_owner_and_dedup stC6 "w1" "u1" ⟨"w1", "Ward", "own-1", 0⟩ 4 8
    (by decide) (by decide) (by decide)).2 (by decide)

/-- Store for the approval scenario: a pending request of `u1` for `w1`
whose (workspace, user) pair already has an Enrollment, and no favorite
on file for `u1`. -/
def stC5 : St := { emptySt with
  workspaces := [⟨"w1", "Ward", "own-1", 0⟩],
  enrollments := [⟨"w1", "u1", 3⟩],
  enrollmentRequests := [⟨1, "w1", "u1", ReqStatus.pending, 2⟩],
  nextId := 2 }

/-- The store after that approval: only the request status changed. -/
def stC5after : St :=
  { stC5 with enrollmentRequests := [⟨1, "w1", "u1", ReqStatus.approved, 2⟩] }

/-- Claim C5 counterexample: approving a pending request whose pair
already has an Enrollment returns the existing Enrollment and marks the
request approved, but does NOT trigger the auto-set-first-favorite step:
the existing-enrollment branch returns before reaching it.  Here `u1`
has no favorite, so the step would have installed one (third conjunct),
yet the post state still has no favorite (second conjunct). -/
theorem C5_counterexample :
    approveEnrollmentRequest stC5 1 "own-1" 9 = .ok (⟨"w1", "u1", 3⟩, stC5after) ∧
    stC5after.favorites = [] ∧
    (autoSetFirstFavorite stC5after "u1").favorites ≠ [] := by
  refine ⟨by decide, by decide, by decide⟩

theorem markRequestApproved_status (s : St) (rid : Nat) :
    ∀ r1 ∈ (markRequestApproved s rid).enrollmentRequests, r1.id = rid →
      r1.status = ReqStatus.approved := by
  intro r1 hr1 hid
  simp only [markRequestApproved] at hr1
  obtain ⟨r0, hr0, heq⟩ := List.mem_map.mp hr1
  by_cases h0 : r0.id == rid
  · rw [if_pos h0] at heq
    rw [← heq]
  · rw [if_neg h0] at heq
    rw [← heq] at hid
    exact absurd (by simp [hid]) h0

/-- Claim C5 amended: `approveEnrollmentRequest` fails NotFound when the
request is missing, Forbidden for a non-owner, BadRequest when the
request is not pending; when the pair already has an Enrollment it marks
the request approved and returns the existing Enrollment without adding
a second one and WITHOUT triggering the auto-set-first-favorite step
(favorites unchanged); only when no Enrollment exists does it create one,
mark the request approved, and run the auto-set-first-favorite step. -/
theorem C5_approve_amended (s : St) (rid : Nat) (o : String) (n : Nat) :
    (s.enrollmentRequests.find? (fun r => r.id == rid) = none →
      approveEnrollmentRequest s rid o n = .error .notFound) ∧
    (∀ req x, s.enrollmentRequests.find? (fun r => r.id == rid) = some req →
      s.workspaces.find? (fun y => y.id == req.workspaceId) = some x →
      ((x.ownerId ≠ o → approveEnrollmentRequest s rid o n = .error .forbidden) ∧
       (x.ownerId = o → req.status ≠ ReqStatus.pending →
          approveEnrollmentRequest s rid o n = .error .badRequest) ∧
       (x.ownerId = o → req.status = ReqStatus.pending →
        ((∀ e, s.enrollments.find?
            (fun e2 => e2.workspaceId == req.workspaceId &&
              e2.userId == req.userId) = some e →
          ∃ s1, approveEnrollmentRequest s rid o n = .ok (e, s1) ∧
            s1.enrollments = s.enrollments ∧
            s1.favorites = s.favorites ∧
            (∀ r1 ∈ s1.enrollmentRequests, r1.id = rid →
              r1.status = ReqStatus.approved)) ∧
         (s.enrollments.find?
            (fun e2 => e2.workspaceId == req.workspaceId &&
              e2.userId == req.userId) = none →
          ∃ s1, approveEnrollmentRequest s rid o n =
              .ok (⟨req.workspaceId, req.userId, n⟩, s1) ∧
            s1 = autoSetFirstFavorite
              (markRequestApproved
                { s with enrollments :=
                    s.enrollments ++ [⟨req.workspaceId, req.userId, n⟩] } rid)
              req.userId ∧
            s1.enrollments = s.enrollments ++ [⟨req.workspaceId, req.userId, n⟩] ∧
            (∀ r1 ∈ s1.enrollmentRequests, r1.id = rid →
              r1.status = ReqStatus.approved)))))) := by
  constructor
  · intro h
    simp only [approveEnrollmentRequest, h]
  · intro req x h1 h2
    refine ⟨fun hne => ?_, fun ho hst => ?_, fun ho hst => ⟨fun e he => ?_, fun he => ?_⟩⟩
    · simp only [approveEnrollmentRequest, h1, h2]
      rw [if_pos (by simp [bne_iff_ne]; exact hne)]
    · simp only [approveEnrollmentRequest, h1, h2]
      rw [if_neg (by simp [bne_iff_ne, ho]), if_pos (by simp [bne_iff_ne]; exact hst)]
    · simp only [approveEnrollmentRequest, h1, h2, he]
      rw [if_neg (by simp [bne_iff_ne, ho]), if_neg (by simp [bne_iff_ne, hst])]
      exact ⟨_, rfl, rfl, rfl, markRequestApproved_status _ _⟩
    · simp only [approveEnrollmentRequest, h1, h2, he]
      rw [if_neg (by simp [bne_iff_ne, ho]), if_neg (by simp [bne_iff_ne, hst])]
      refine ⟨_, rfl, rfl, ?_, ?_⟩
      · rw [autoSetFirstFavorite_enrollments]
        rfl
      · intro r1 hr1 hid
        rw [autoSetFirstFavorite_enrollmentRequests] at hr1
        exact markRequestApproved_status _ _ r1 hr1 hid

/-- Witness for the amended C5 on the concrete store: the
existing-enrollment branch keeps enrollments and favorites unchanged
while the request becomes approved. -/
theorem C5_witness :
    ∃ s1, approveEnrollmentRequest stC5 1 "own-1" 9 = .ok (⟨"w1", "u1", 3⟩, s1) ∧
      s1.enrollments = stC5.enrollments ∧
      s1.favorites = stC5.favorites ∧
      (∀ r1 ∈ s1.enrollmentRequests, r1.id = 1 →
        r1.status = ReqStatus.approved) :=
  ((((C5_approve_amended stC5 1 "own-1" 9).2 ⟨1, "w1", "u1", ReqStatus.pending, 2⟩
    ⟨"w1", "Ward", "own-1", 0⟩ (by decide) (by decide)).2.2 rfl rfl).1)
    ⟨"w1", "u1", 3⟩ (by decide)

theorem filter_idem (p : α → Bool) (l : List α) :
    (l.filter p).filter p = l.filter p :=
  List.filter_eq_self.mpr (fun _ ha => (List.mem_filter.mp ha).2)

theorem mkAssignmentRows_rosterId (rid : Nat) (asg : List AssignmentInput) :
    ∀ a ∈ mkAssignmentRows rid asg, a.rosterId = rid := by
  intro a ha
  obtain ⟨b, _, heq⟩ := List.mem_map.mp ha
  rw [← heq]

theorem filter_mk_self (rid : Nat) (asg : List AssignmentInput) :
    (mkAssignmentRows rid asg).filter (fun a => a.rosterId == rid) =
      mkAssignmentRows rid asg :=
  List.filter_eq_self.mpr
    (fun a ha => by simp [mkAssignmentRows_rosterId rid asg a ha])

theorem filter_mk_not (rid : Nat) (asg : List AssignmentInput) :
    (mkAssignmentRows rid asg).filter (fun a => !(a.rosterId == rid)) = [] :=
  List.filter_eq_nil_iff.mpr
    (fun a ha => by simp [mkAssignmentRows_rosterId rid asg a ha])

/-- Claim C9: `saveRoster` is a frame for the publication fields.  When a
roster for (workspaceId, month, year) already exists, the saved roster
keeps its id, status, publishedAt, publishedBy and createdAt (only
updatedAt moves), so re-saving a published roster does not revert it to
draft; only a freshly created roster starts in draft with no publication
data. -/
theorem C9_saveRoster_frame (s : St) (wid : String) (m y : Nat)
    (asg : List AssignmentInput) (uid : String) (now : Nat) (x : WorkspaceRow)
    (hwx : s.workspaces.find? (fun w2 => w2.id == wid) = some x)
    (hown : x.ownerId = uid) :
    (∀ r, s.rosters.find?
        (fun r2 => r2.workspaceId == wid && r2.month == m && r2.year == y) = some r →
      ∃ r1 s1, saveRoster s wid m y asg uid now = .ok (r1, s1) ∧
        r1.id = r.id ∧ r1.status = r.status ∧ r1.publishedAt = r.publishedAt ∧
        r1.publishedBy = r.publishedBy ∧ r1.createdAt = r.createdAt ∧
        s1.rosters = s.rosters.map (fun z => if z.id == r.id then r1 else z)) ∧
    (s.rosters.find?
        (fun r2 => r2.workspaceId == wid && r2.month == m && r2.year == y) = none →
      ∃ s1, saveRoster s wid m y asg uid now =
          .ok (⟨s.nextId, wid, m, y, RStatus.draft, none, none, now, now⟩, s1) ∧
        s1.rosters =
          s.rosters ++ [⟨s.nextId, wid, m, y, RStatus.draft, none, none, now, now⟩]) := by
  constructor
  · intro r hr
    simp only [saveRoster, hwx, hr, replaceAssignments]
    rw [if_neg (by simp [bne_iff_ne, hown])]
    exact ⟨_, _, rfl, rfl, rfl, rfl, rfl, rfl, rfl⟩
  · intro hr
    simp only [saveRoster, hwx, hr, replaceAssignments]
    rw [if_neg (by simp [bne_iff_ne, hown])]
    exact ⟨_, rfl, rfl⟩

/-- A published roster with one stored assignment. -/
def rosterPub : RosterRow :=
  ⟨3, "w1", 5, 2024, RStatus.published, some 77, some "own-1", 1, 1⟩

/-- Store holding the published roster. -/
def stC9 : St := { emptySt with
  workspaces := [⟨"w1", "Ward", "own-1", 0⟩],
  rosters := [rosterPub],
  rosterAssignments := [⟨3, "u1", 1, "M", "N", false⟩],
  nextId := 4 }

/-- Witness for C9: re-saving the published roster keeps it published
with its publication metadata. -/
theorem C9_witness :
    ∃ r1 s1, saveRoster stC9 "w1" 5 2024 [] "own-1" 9 = .ok (r1, s1) ∧
      r1.id = rosterPub.id ∧ r1.status = rosterPub.status ∧
      r1.publishedAt = rosterPub.publishedAt ∧
      r1.publishedBy = rosterPub.publishedBy ∧
      r1.createdAt = rosterPub.createdAt ∧
      s1.rosters = stC9.rosters.map (fun z => if z.id == rosterPub.id then r1 else z) :=
  (C9_saveRoster_frame stC9 "w1" 5 2024 [] "own-1" 9 ⟨"w1", "Ward", "own-1", 0⟩
    (by decide) (by decide)).1 rosterPub (by decide)

theorem find?_map_ite (l : List RosterRow) (p : RosterRow → Bool) (r r1 : RosterRow)
    (hfind : l.find? p = some r) (hp1 : p r1 = true) :
    (l.map (fun z => if z.id == r.id then r1 else z)).find? p = some r1 := by
  induction l with
  | nil => simp at hfind
  | cons a t ih =>
    simp only [List.map_cons]
    by_cases hpa : p a
    · rw [List.find?_cons_of_pos _ hpa] at hfind
      injection hfind with h
      subst h
      rw [if_pos (by simp)]
      exact List.find?_cons_of_pos _ hp1
    · rw [List.find?_cons_of_neg _ hpa] at hfind
      by_cases hida : (a.id == r.id) = true
      · rw [if_pos hida]
        exact List.find?_cons_of_pos _ hp1
      · rw [if_neg hida, List.find?_cons_of_neg _ hpa]
        exact ih hfind

theorem map_ite_idem (l : List RosterRow) (rid : Nat) (r1 : RosterRow)
    (hid : r1.id = rid) :
    (l.map (fun z => if z.id == rid then r1 else z)).map
      (fun z => if z.id == rid then r1 else z) =
      l.map (fun z => if z.id == rid then r1 else z) := by
  rw [List.map_map]
  apply List.map_congr_left
  intro a _
  simp only [Function.comp_apply]
  by_cases h : (a.id == rid) = true
  · rw [if_pos h, if_pos (by simp [hid])]
  · rw [if_neg h, if_neg h]

theorem map_ite_of_no_id (l : List RosterRow) (rid : Nat) (r1 : RosterRow)
    (h : ∀ z ∈ l, z.id ≠ rid) :
    l.map (fun z => if z.id == rid then r1 else z) = l := by
  have h2 : l.map (fun z => if z.id == rid then r1 else z) = l.map id :=
    List.map_congr_left (fun a ha => by simp [h a ha])
  simpa using h2

/-- Claim C1: `saveRoster` (for the workspace owner) replaces the
roster's assignment rows wholesale - after the call the rows of that
roster are exactly one per input assignment with non-empty dutyType
(empty-string cells are omitted), rows of other rosters untouched - and
it is idempotent: running it again with the same list returns the same
roster and leaves the state exactly as after the first call. -/
theorem C1_saveRoster_wholesale_idempotent (s : St) (wid : String) (m y : Nat)
    (asg : List AssignmentInput) (uid : String) (now : Nat) (x : WorkspaceRow)
    (hwx : s.workspaces.find? (fun w2 => w2.id == wid) = some x)
    (hown : x.ownerId = uid)
    (hfresh : ∀ r ∈ s.rosters, r.id ≠ s.nextId) :
    ∃ r1 s1, saveRoster s wid m y asg uid now = .ok (r1, s1) ∧
      s1.rosterAssignments.filter (fun a => a.rosterId == r1.id) =
        mkAssignmentRows r1.id asg ∧
      (s1.rosterAssignments.filter (fun a => a.rosterId == r1.id)).length =
        (asg.filter (fun a => a.dutyType != "")).length ∧
      s1.rosterAssignments.filter (fun a => !(a.rosterId == r1.id)) =
        s.rosterAssignments.filter (fun a => !(a.rosterId == r1.id)) ∧
      saveRoster s1 wid m y asg uid now = .ok (r1, s1) := by
  rcases hr : s.rosters.find?
      (fun r2 => r2.workspaceId == wid && r2.month == m && r2.year == y) with _ | r
  · -- no roster yet: a fresh draft roster with id s.nextId is created
    simp only [saveRoster, hwx, hr, replaceAssignments]
    rw [if_neg (by simp [bne_iff_ne, hown])]
    refine ⟨_, _, rfl, ?_, ?_, ?_, ?_⟩
    · rw [List.filter_append,
        filter_of_filter_not (fun a => a.rosterId == s.nextId) s.rosterAssignments,
        filter_mk_self, List.nil_append]
    · rw [List.filter_append,
        filter_of_filter_not (fun a => a.rosterId == s.nextId) s.rosterAssignments,
        filter_mk_self, List.nil_append]
      simp [mkAssignmentRows]
    · rw [List.filter_append,
        filter_idem (fun a => !(a.rosterId == s.nextId)) s.rosterAssignments,
        filter_mk_not, List.append_nil]
    · simp only [saveRoster, hwx]
      rw [if_neg (by simp [bne_iff_ne, hown])]
      rw [List.find?_append, hr]
      simp only [Option.none_or]
      rw [List.find?_cons_of_pos _ (by simp)]
      simp only [replaceAssignments]
      rw [List.map_append, map_ite_of_no_id s.rosters s.nextId _ hfresh]
      rw [List.filter_append,
        filter_idem (fun a => !(a.rosterId == s.nextId)) s.rosterAssignments,
        filter_mk_not, List.append_nil]
      simp
  · -- roster exists: only updatedAt moves, assignments are replaced
    have hp := List.find?_some hr
    simp only [saveRoster, hwx, hr, replaceAssignments]
    rw [if_neg (by simp [bne_iff_ne, hown])]
    refine ⟨_, _, rfl, ?_, ?_, ?_, ?_⟩
    · rw [List.filter_append,
        filter_of_filter_not (fun a => a.rosterId == r.id) s.rosterAssignments,
        filter_mk_self, List.nil_append]
    · rw [List.filter_append,
        filter_of_filter_not (fun a => a.rosterId == r.id) s.rosterAssignments,
        filter_mk_self, List.nil_append]
      simp [mkAssignmentRows]
    · rw [List.filter_append,
        filter_idem (fun a => !(a.rosterId == r.id)) s.rosterAssignments,
        filter_mk_not, List.append_nil]
    · simp only [saveRoster, hwx]
      rw [if_neg (by simp [bne_iff_ne, hown])]
      rw [find?_map_ite s.rosters _ r { r with updatedAt := now } hr hp]
      simp only [replaceAssignments]
      rw [map_ite_idem s.rosters r.id { r with updatedAt := now } rfl]
      rw [List.filter_append,
        filter_idem (fun a => !(a.rosterId == r.id)) s.rosterAssignments,
        filter_mk_not, List.append_nil]

/-- Two assignment cells, one of them an empty-string "clear" sentinel. -/
def asgTwo : List AssignmentInput :=
  [⟨"u1", 2, "M", "E", false⟩, ⟨"u2", 3, "E", "", true⟩]

/-- Witness for C1: saving these two cells stores exactly the one
non-empty assignment, leaves the other roster's rows alone, and saving
again reproduces the same state. -/
theorem C1_witness :
    ∃ r1 s1, saveRoster stC9 "w1" 5 2024 asgTwo "own-1" 9 = .ok (r1, s1) ∧
      s1.rosterAssignments.filter (fun a => a.rosterId == r1.id) =
        mkAssignmentRows r1.id asgTwo ∧
      (s1.rosterAssignments.filter (fun a => a.rosterId == r1.id)).length =
        (asgTwo.filter (fun a => a.dutyType != "")).length ∧
      s1.rosterAssignments.filter (fun a => !(a.rosterId == r1.id)) =
        stC9.rosterAssignments.filter (fun a => !(a.rosterId == r1.id)) ∧
      saveRoster s1 "w1" 5 2024 asgTwo "own-1" 9 = .ok (r1, s1) :=
  C1_saveRoster_wholesale_idempotent stC9 "w1" 5 2024 asgTwo "own-1" 9
    ⟨"w1", "Ward", "own-1", 0⟩ (by decide) (by decide) (by decide)

/-- The intended favorites invariant: at most one `UserFavorite` row per
user (every two rows carry different user ids). -/
def favUnique (s : St) : Prop :=
  s.favorites.Pairwise (fun a b => a.userId ≠ b.userId)

theorem favUnique_of_eraseP (s : St) (p : FavoriteRow → Bool)
    (hP : favUnique s) :
    (s.favorites.eraseP p).Pairwise (fun a b => a.userId ≠ b.userId) :=
  List.Pairwise.sublist (List.eraseP_sublist _) hP

theorem favUnique_of_map_keep (l : List FavoriteRow)
    (g : FavoriteRow → FavoriteRow) (hg : ∀ a, (g a).userId = a.userId)
    (hP : l.Pairwise (fun a b => a.userId ≠ b.userId)) :
    (l.map g).Pairwise (fun a b => a.userId ≠ b.userId) :=
  List.Pairwise.map g (fun a b hab => by rw [hg, hg]; exact hab) hP

theorem favUnique_of_append_new (l : List FavoriteRow) (x : FavoriteRow)
    (hnew : ∀ a ∈ l, a.userId ≠ x.userId)
    (hP : l.Pairwise (fun a b => a.userId ≠ b.userId)) :
    (l ++ [x]).Pairwise (fun a b => a.userId ≠ b.userId) := by
  rw [List.pairwise_append]
  exact ⟨hP, by simp, fun a ha b hb => by
    rw [List.mem_singleton.mp hb]; exact hnew a ha⟩

theorem not_mem_userId_of_find?_none (l : List FavoriteRow) (u : String)
    (h : l.find? (fun f => f.userId == u) = none) :
    ∀ a ∈ l, a.userId ≠ u := by
  intro a ha
  have := List.find?_eq_none.mp h a ha
  simpa using this

theorem favUnique_autoSet (s : St) (u : String) (hP : favUnique s) :
    favUnique (autoSetFirstFavorite s u) := by
  unfold autoSetFirstFavorite
  cases hf : s.favorites.find? (fun f => f.userId == u) with
  | some fav => exact hP
  | none =>
    cases he : findOldestEnrollment s u with
    | none => exact hP
    | some e =>
      exact favUnique_of_append_new s.favorites ⟨u, e.workspaceId⟩
        (not_mem_userId_of_find?_none s.favorites u hf) hP

theorem favUnique_shift (s : St) (u w : String) (hP : favUnique s) :
    favUnique (shiftFavoriteToNext s u w) := by
  unfold shiftFavoriteToNext
  cases hf : s.favorites.find? (fun f => f.userId == u) with
  | none => exact hP
  | some fav =>
    dsimp only
    by_cases hw : (fav.workspaceId == w) = true
    · rw [if_pos hw]
      cases he : findOldestEnrollment s u with
      | some e =>
        have hg : ∀ a : FavoriteRow,
            ((fun f => if f.userId == u then (⟨u, e.workspaceId⟩ : FavoriteRow) else f) a).userId =
              a.userId := by
          intro a
          by_cases h : (a.userId == u) = true
          · simp only [if_pos h]
            exact (beq_iff_eq.mp h).symm
          · simp only [if_neg h]
        exact favUnique_of_map_keep s.favorites _ hg hP
      | none => exact favUnique_of_eraseP s _ hP
    · rw [if_neg hw]
      exact hP

theorem foldl_min_spec (l : List EnrollmentRow) (acc : Option EnrollmentRow)
    (r : EnrollmentRow)
    (h : l.foldl (fun acc e =>
      match acc with
      | none => some e
      | some b => if e.enrolledAt < b.enrolledAt then some e else acc) acc = some r) :
    (acc = some r ∨ r ∈ l) ∧
    (∀ b, acc = some b → r.enrolledAt ≤ b.enrolledAt) ∧
    (∀ x ∈ l, r.enrolledAt ≤ x.enrolledAt) := by
  induction l generalizing acc with
  | nil =>
    simp only [List.foldl_nil] at h
    refine ⟨Or.inl h, fun b hb => ?_, by simp⟩
    rw [h] at hb
    injection hb with hb
    rw [hb]
  | cons a t ih =>
    simp only [List.foldl_cons] at h
    cases acc with
    | none =>
      obtain ⟨h1, h2, h3⟩ := ih (some a) h
      refine ⟨?_, ?_, ?_⟩
      · rcases h1 with ha | ht
        · injection ha with ha
          exact Or.inr (ha ▸ List.mem_cons_self a t)
        · exact Or.inr (List.mem_cons_of_mem a ht)
      · intro b hb
        exact absurd hb (by simp)
      · intro x hx
        rcases List.mem_cons.mp hx with rfl | hxt
        · exact h2 x rfl
        · exact h3 x hxt
    | some b0 =>
      dsimp only at h
      by_cases hab : a.enrolledAt < b0.enrolledAt
      · rw [if_pos hab] at h
        obtain ⟨h1, h2, h3⟩ := ih (some a) h
        refine ⟨?_, ?_, ?_⟩
        · rcases h1 with ha | ht
          · injection ha with ha
            exact Or.inr (ha ▸ List.mem_cons_self a t)
          · exact Or.inr (List.mem_cons_of_mem a ht)
        · intro b hb
          injection hb with hb
          subst hb
          exact le_trans (h2 a rfl) (le_of_lt hab)
        · intro x hx
          rcases List.mem_cons.mp hx with rfl | hxt
          · exact h2 x rfl
          · exact h3 x hxt
      · rw [if_neg hab] at h
        obtain ⟨h1, h2, h3⟩ := ih (some b0) h
        refine ⟨?_, ?_, ?_⟩
        · rcases h1 with hb | ht
          · exact Or.inl hb
          · exact Or.inr (List.mem_cons_of_mem a ht)
        · exact h2
        · intro x hx
          rcases List.mem_cons.mp hx with rfl | hxt
          · exact le_trans (h2 b0 rfl) (le_of_not_lt hab)
          · exact h3 x hxt

theorem findOldestEnrollment_spec (s : St) (u : String) (e : EnrollmentRow)
    (h : findOldestEnrollment s u = some e) :
    e ∈ s.enrollments ∧ e.userId = u ∧
      ∀ e2 ∈ s.enrollments, e2.userId = u → e.enrolledAt ≤ e2.enrolledAt := by
  unfold findOldestEnrollment at h
  obtain ⟨h1, _, h3⟩ := foldl_min_spec _ none e h
  have hmem : e ∈ s.enrollments.filter (fun x => x.userId == u) := by
    rcases h1 with h1 | h1
    · exact absurd h1 (by simp)
    · exact h1
  refine ⟨(List.mem_filter.mp hmem).1, by simpa using (List.mem_filter.mp hmem).2, ?_⟩
  intro e2 he2 hu2
  exact h3 e2 (List.mem_filter.mpr ⟨he2, by simp [hu2]⟩)

theorem foldl_min_none (l : List EnrollmentRow) (acc : Option EnrollmentRow)
    (h : l.foldl (fun acc e =>
      match acc with
      | none => some e
      | some b => if e.enrolledAt < b.enrolledAt then some e else acc) acc = none) :
    l = [] ∧ acc = none := by
  induction l generalizing acc with
  | nil => exact ⟨rfl, h⟩
  | cons a t ih =>
    simp only [List.foldl_cons] at h
    cases acc with
    | none =>
      obtain ⟨_, h2⟩ := ih (some a) h
      exact absurd h2 (by simp)
    | some b0 =>
      dsimp only at h
      by_cases hab : a.enrolledAt < b0.enrolledAt
      · rw [if_pos hab] at h
        obtain ⟨_, h2⟩ := ih (some a) h
        exact absurd h2 (by simp)
      · rw [if_neg hab] at h
        obtain ⟨_, h2⟩ := ih (some b0) h
        exact absurd h2 (by simp)

theorem findOldestEnrollment_none (s : St) (u : String)
    (h : findOldestEnrollment s u = none) :
    ∀ e ∈ s.enrollments, e.userId ≠ u := by
  unfold findOldestEnrollment at h
  obtain ⟨h1, _⟩ := foldl_min_none _ none h
  intro e he hu
  have : e ∈ s.enrollments.filter (fun x => x.userId == u) :=
    List.mem_filter.mpr ⟨he, by simp [hu]⟩
  rw [h1] at this
  simp at this

theorem find?_map_fav (l : List FavoriteRow) (u nw : String) (fav : FavoriteRow)
    (h : l.find? (fun f => f.userId == u) = some fav) :
    (l.map (fun f => if f.userId == u then (⟨u, nw⟩ : FavoriteRow) else f)).find?
      (fun f => f.userId == u) = some ⟨u, nw⟩ := by
  induction l with
  | nil => simp at h
  | cons a t ih =>
    simp only [List.map_cons]
    by_cases hpa : (a.userId == u) = true
    · rw [if_pos hpa]
      exact List.find?_cons_of_pos _ (by simp)
    · rw [if_neg hpa,
        @List.find?_cons_of_neg FavoriteRow (fun f => f.userId == u) a _ hpa]
      rw [@List.find?_cons_of_neg FavoriteRow (fun f => f.userId == u) a t hpa] at h
      exact ih h

theorem pairwise_filter_len_le_one (l : List FavoriteRow) (u : String)
    (hp : l.Pairwise (fun a b => a.userId ≠ b.userId)) :
    (l.filter (fun f => f.userId == u)).length ≤ 1 := by
  induction l with
  | nil => simp
  | cons a t ih =>
    have hra := (List.pairwise_cons.mp hp).1
    have hpt := (List.pairwise_cons.mp hp).2
    by_cases hpa : (a.userId == u) = true
    · rw [@List.filter_cons_of_pos FavoriteRow (fun f => f.userId == u) a t hpa]
      have hnil : t.filter (fun f => f.userId == u) = [] := by
        apply List.filter_eq_nil_iff.mpr
        intro b hb hbu
        exact (hra b hb) (by
          rw [beq_iff_eq] at hpa hbu
          rw [hpa, hbu])
      rw [hnil]
      simp
    · rw [@List.filter_cons_of_neg FavoriteRow (fun f => f.userId == u) a t hpa]
      exact ih hpt

theorem find?_eraseP_none_of_unique (l : List FavoriteRow) (u : String)
    (hp : l.Pairwise (fun a b => a.userId ≠ b.userId)) :
    (l.eraseP (fun f => f.userId == u)).find? (fun f => f.userId == u) = none := by
  apply List.find?_eq_none.mpr
  intro x hx hpx
  have hmem : x ∈ (l.eraseP (fun f => f.userId == u)).filter
      (fun f => f.userId == u) := List.mem_filter.mpr ⟨hx, hpx⟩
  rw [filter_after_eraseP _ _ (pairwise_filter_len_le_one l u hp)] at hmem
  simp at hmem

theorem favUnique_removeFavOp (s : St) (u : String) (hP : favUnique s) :
    favUnique (removeFavoriteWorkspace s u) := by
  unfold removeFavoriteWorkspace
  cases h : s.favorites.find? (fun f => f.userId == u) with
  | none => exact hP
  | some fav => exact favUnique_of_eraseP s _ hP

theorem favUnique_getFavOp (s : St) (u : String) (hP : favUnique s) :
    favUnique (getFavoriteWorkspace s u).2 := by
  unfold getFavoriteWorkspace
  cases h1 : s.favorites.find? (fun f => f.userId == u) with
  | none => exact hP
  | some fav =>
    dsimp only
    cases h2 : s.enrollments.find?
        (fun e => e.workspaceId == fav.workspaceId && e.userId == u) with
    | none => exact favUnique_of_eraseP s _ hP
    | some e => exact hP

theorem favUnique_setFavOp (s : St) (w u : String) (fav : FavoriteRow) (s1 : St)
    (hP : favUnique s) (hok : setFavoriteWorkspace s w u = .ok (fav, s1)) :
    favUnique s1 := by
  unfold setFavoriteWorkspace at hok
  rcases h1 : s.enrollments.find?
      (fun e => e.workspaceId == w && e.userId == u) with _ | e
  · rw [h1] at hok
    dsimp only at hok
    simp at hok
  · rw [h1] at hok
    dsimp only at hok
    rcases h2 : s.favorites.find? (fun f => f.userId == u) with _ | old
    · rw [h2] at hok
      dsimp only at hok
      simp only [Except.ok.injEq, Prod.mk.injEq] at hok
      rw [← hok.2]
      exact favUnique_of_append_new s.favorites ⟨u, w⟩
        (not_mem_userId_of_find?_none s.favorites u h2) hP
    · rw [h2] at hok
      dsimp only at hok
      simp only [Except.ok.injEq, Prod.mk.injEq] at hok
      rw [← hok.2]
      have hg : ∀ a : FavoriteRow,
          ((fun f => if f.userId == u then (⟨u, w⟩ : FavoriteRow) else f) a).userId =
            a.userId := by
        intro a
        by_cases h : (a.userId == u) = true
        · simp only [if_pos h]
          exact (beq_iff_eq.mp h).symm
        · simp only [if_neg h]
      exact favUnique_of_map_keep s.favorites _ hg hP

theorem favUnique_unenrollOp (s : St) (w u : String) (s1 : St)
    (hP : favUnique s) (hok : unenrollFromWorkspace s w u = .ok s1) :
    favUnique s1 := by
  unfold unenrollFromWorkspace at hok
  rcases h1 : s.enrollments.find?
      (fun e => e.workspaceId == w && e.userId == u) with _ | e
  · rw [h1] at hok
    dsimp only at hok
    simp at hok
  · rw [h1] at hok
    dsimp only at hok
    simp only [Except.ok.injEq] at hok
    rw [← hok]
    exact favUnique_shift _ u w hP

theorem favUnique_removeUserOp (s : St) (w tu o : String) (s1 : St)
    (hP : favUnique s) (hok : removeUserFromWorkspace s w tu o = .ok s1) :
    favUnique s1 := by
  unfold removeUserFromWorkspace at hok
  rcases h1 : s.workspaces.find? (fun w2 => w2.id == w) with _ | x
  · rw [h1] at hok
    dsimp only at hok
    simp at hok
  · rw [h1] at hok
    dsimp only at hok
    by_cases h2 : (x.ownerId != o) = true
    · rw [if_pos h2] at hok
      simp at hok
    · rw [if_neg h2] at hok
      by_cases h3 : (tu == o) = true
      · rw [if_pos h3] at hok
        simp at hok
      · rw [if_neg h3] at hok
        rcases h4 : s.enrollments.find?
            (fun e => e.workspaceId == w && e.userId == tu) with _ | e
        · rw [h4] at hok
          dsimp only at hok
          simp at hok
        · rw [h4] at hok
          dsimp only at hok
          simp only [Except.ok.injEq] at hok
          rw [← hok]
          exact favUnique_shift _ tu w hP

theorem favUnique_requestEnrollmentOp (s : St) (w u : String) (n : Nat)
    (v : EnrollOutcome) (s1 : St) (hP : favUnique s)
    (hok : requestEnrollment s w u n = .ok (v, s1)) : favUnique s1 := by
  unfold requestEnrollment at hok
  rcases h1 : s.workspaces.find? (fun w2 => w2.id == w) with _ | x
  · rw [h1] at hok
    dsimp only at hok
    simp at hok
  · rw [h1] at hok
    dsimp only at hok
    rcases h2 : s.enrollments.find?
        (fun e => e.workspaceId == w && e.userId == u) with _ | e
    · rw [h2] at hok
      dsimp only at hok
      rcases h3 : s.enrollmentRequests.find?
          (fun r => r.workspaceId == w && r.userId == u &&
            r.status == ReqStatus.pending) with _ | rq
      · rw [h3] at hok
        dsimp only at hok
        by_cases h4 : (x.ownerId == u) = true
        · rw [if_pos h4] at hok
          simp only [Except.ok.injEq, Prod.mk.injEq] at hok
          rw [← hok.2]
          exact favUnique_autoSet _ u hP
        · rw [if_neg h4] at hok
          simp only [Except.ok.injEq, Prod.mk.injEq] at hok
          rw [← hok.2]
          exact hP
      · rw [h3] at hok
        dsimp only at hok
        simp at hok
    · rw [h2] at hok
      dsimp only at hok
      simp at hok

theorem favUnique_approveOp (s : St) (rid : Nat) (o : String) (n : Nat)
    (e : EnrollmentRow) (s1 : St) (hP : favUnique s)
    (hok : approveEnrollmentRequest s rid o n = .ok (e, s1)) : favUnique s1 := by
  unfold approveEnrollmentRequest at hok
  rcases h1 : s.enrollmentRequests.find? (fun r => r.id == rid) with _ | req
  · rw [h1] at hok
    dsimp only at hok
    simp at hok
  · rw [h1] at hok
    dsimp only at hok
    rcases h2 : s.workspaces.find? (fun w2 => w2.id == req.workspaceId) with _ | x
    · rw [h2] at hok
      dsimp only at hok
      simp at hok
    · rw [h2] at hok
      dsimp only at hok
      by_cases h3 : (x.ownerId != o) = true
      · rw [if_pos h3] at hok
        simp at hok
      · rw [if_neg h3] at hok
        by_cases h4 : (req.status != ReqStatus.pending) = true
        · rw [if_pos h4] at hok
          simp at hok
        · rw [if_neg h4] at hok
          rcases h5 : s.enrollments.find?
              (fun e2 => e2.workspaceId == req.workspaceId &&
                e2.userId == req.userId) with _ | e0
          · rw [h5] at hok
            dsimp only at hok
            simp only [Except.ok.injEq, Prod.mk.injEq] at hok
            rw [← hok.2]
            exact favUnique_autoSet _ req.userId hP
          · rw [h5] at hok
            dsimp only at hok
            simp only [Except.ok.injEq, Prod.mk.injEq] at hok
            rw [← hok.2]
            exact hP

theorem favUnique_requestLeaveOp (s : St) (w u : String) (sd ed : Nat)
    (r : LeaveRequestRow) (s1 : St) (hP : favUnique s)
    (hok : requestLeave s w u sd ed = .ok (r, s1)) : favUnique s1 := by
  unfold requestLeave at hok
  rcases h1 : s.workspaces.find? (fun w2 => w2.id == w) with _ | x
  · rw [h1] at hok
    dsimp only at hok
    simp at hok
  · rw [h1] at hok
    dsimp only at hok
    rcases h2 : s.enrollments.find?
        (fun e => e.workspaceId == w && e.userId == u) with _ | e
    · rw [h2] at hok
      dsimp only at hok
      simp at hok
    · rw [h2] at hok
      dsimp only at hok
      by_cases h3 : ed < sd
      · rw [if_pos h3] at hok
        simp at hok
      · rw [if_neg h3] at hok
        by_cases h4 : overlapsPendingLeave s w u sd ed = true
        · rw [if_pos h4] at hok
          simp at hok
        · rw [if_neg h4] at hok
          simp only [Except.ok.injEq, Prod.mk.injEq] at hok
          rw [← hok.2]
          exact hP

theorem favUnique_saveRosterOp (s : St) (wid : String) (m y : Nat)
    (asg : List AssignmentInput) (uid : String) (now : Nat)
    (r : RosterRow) (s1 : St) (hP : favUnique s)
    (hok : saveRoster s wid m y asg uid now = .ok (r, s1)) : favUnique s1 := by
  unfold saveRoster at hok
  rcases h1 : s.workspaces.find? (fun w2 => w2.id == wid) with _ | x
  · rw [h1] at hok
    dsimp only at hok
    simp at hok
  · rw [h1] at hok
    dsimp only at hok
    by_cases h2 : (x.ownerId != uid) = true
    · rw [if_pos h2] at hok
      simp at hok
    · rw [if_neg h2] at hok
      rcases h3 : s.rosters.find?
          (fun r2 => r2.workspaceId == wid && r2.month == m &&
            r2.year == y) with _ | r0
      · rw [h3] at hok
        dsimp only at hok
        simp only [replaceAssignments, Except.ok.injEq, Prod.mk.injEq] at hok
        rw [← hok.2]
        exact hP
      · rw [h3] at hok
        dsimp only at hok
        simp only [replaceAssignments, Except.ok.injEq, Prod.mk.injEq] at hok
        rw [← hok.2]
        exact hP

theorem favUnique_createInvitationOp (env : AuthEnv) (s : St)
    (w em o : String) (inv : InvitationRow) (s1 : St) (hP : favUnique s)
    (hok : createInvitation env s w em o = .ok (inv, s1)) : favUnique s1 := by
  have htail : ∀ nm, createInvitationTail s w o nm = .ok (inv, s1) → favUnique s1 := by
    intro nm htl
    unfold createInvitationTail at htl
    rcases h4 : s.invitations.find?
        (fun i => i.workspaceId == w && i.inviteeEmail == nm &&
          i.status == InvStatus.pending) with _ | iv
    · rw [h4] at htl
      simp only [Except.ok.injEq, Prod.mk.injEq] at htl
      rw [← htl.2]
      exact hP
    · rw [h4] at htl
      simp at htl
  unfold createInvitation at hok
  rcases h1 : s.workspaces.find? (fun w2 => w2.id == w) with _ | x
  · rw [h1] at hok
    dsimp only at hok
    simp at hok
  · rw [h1] at hok
    dsimp only at hok
    by_cases h2 : (x.ownerId != o) = true
    · rw [if_pos h2] at hok
      simp at hok
    · rw [if_neg h2] at hok
      rcases h3 : selfInviteCheck env o (normalizeEmail em) with e0 | u0
      · rw [h3] at hok
        dsimp only at hok
        rcases h5 : inviteeEnrolledCheck env s w (normalizeEmail em) with e1 | u1
        · rw [h5] at hok
          cases e1 with
          | conflict => simp at hok
          | notFound => exact htail _ hok
          | forbidden => exact htail _ hok
          | badRequest => exact htail _ hok
          | internal => exact htail _ hok
        · rw [h5] at hok
          exact htail _ hok
      · rw [h3] at hok
        dsimp only at hok
        rcases h5 : inviteeEnrolledCheck env s w (normalizeEmail em) with e1 | u1
        · rw [h5] at hok
          cases e1 with
          | conflict => simp at hok
          | notFound => exact htail _ hok
          | forbidden => exact htail _ hok
          | badRequest => exact htail _ hok
          | internal => exact htail _ hok
        · rw [h5] at hok
          exact htail _ hok

/-- Claim C8: the at-most-one-favorite-per-user invariant is preserved
by every modelled operation; `shiftFavoriteToNext`, when the removed
workspace was the favorite, repoints the favorite at the remaining
enrollment with the oldest enrolledAt or deletes the row when no
enrollment remains; `autoSetFirstFavorite` changes nothing for a user
who already has a favorite and otherwise installs the user's oldest
enrollment as favorite (nothing when they have none). -/
theorem C8_favorite_invariant (env : AuthEnv) (s : St)
    (u w tu o uid em : String) (rid n sd ed m y now : Nat)
    (asg : List AssignmentInput) (hP : favUnique s) :
    favUnique (autoSetFirstFavorite s u) ∧
    favUnique (shiftFavoriteToNext s u w) ∧
    favUnique (removeFavoriteWorkspace s u) ∧
    favUnique (getFavoriteWorkspace s u).2 ∧
    (∀ fav s1, setFavoriteWorkspace s w u = .ok (fav, s1) → favUnique s1) ∧
    (∀ s1, unenrollFromWorkspace s w u = .ok s1 → favUnique s1) ∧
    (∀ s1, removeUserFromWorkspace s w tu o = .ok s1 → favUnique s1) ∧
    (∀ v s1, requestEnrollment s w u n = .ok (v, s1) → favUnique s1) ∧
    (∀ e s1, approveEnrollmentRequest s rid o n = .ok (e, s1) → favUnique s1) ∧
    (∀ r s1, requestLeave s w u sd ed = .ok (r, s1) → favUnique s1) ∧
    (∀ r s1, saveRoster s w m y asg uid now = .ok (r, s1) → favUnique s1) ∧
    (∀ inv s1, createInvitation env s w em o = .ok (inv, s1) → favUnique s1) ∧
    (∀ fav, s.favorites.find? (fun f => f.userId == u) = some fav →
      fav.workspaceId = w →
      ((∀ e, findOldestEnrollment s u = some e →
        ((shiftFavoriteToNext s u w).favorites.find? (fun f => f.userId == u) =
            some ⟨u, e.workspaceId⟩ ∧
          e ∈ s.enrollments ∧ e.userId = u ∧
          ∀ e2 ∈ s.enrollments, e2.userId = u → e.enrolledAt ≤ e2.enrolledAt)) ∧
       (findOldestEnrollment s u = none →
        ((shiftFavoriteToNext s u w).favorites.find? (fun f => f.userId == u) = none ∧
          ∀ e2 ∈ s.enrollments, e2.userId ≠ u)))) ∧
    (∀ fav, s.favorites.find? (fun f => f.userId == u) = some fav →
      autoSetFirstFavorite s u = s) ∧
    (s.favorites.find? (fun f => f.userId == u) = none →
      ((findOldestEnrollment s u = none → autoSetFirstFavorite s u = s) ∧
       (∀ e, findOldestEnrollment s u = some e →
        ((autoSetFirstFavorite s u).favorites = s.favorites ++ [⟨u, e.workspaceId⟩] ∧
          e ∈ s.enrollments ∧ e.userId = u ∧
          ∀ e2 ∈ s.enrollments, e2.userId = u → e.enrolledAt ≤ e2.enrolledAt)))) := by
  refine ⟨favUnique_autoSet s u hP, favUnique_shift s u w hP,
    favUnique_removeFavOp s u hP, favUnique_getFavOp s u hP,
    fun fav s1 h => favUnique_setFavOp s w u fav s1 hP h,
    fun s1 h => favUnique_unenrollOp s w u s1 hP h,
    fun s1 h => favUnique_removeUserOp s w tu o s1 hP h,
    fun v s1 h => favUnique_requestEnrollmentOp s w u n v s1 hP h,
    fun e s1 h => favUnique_approveOp s rid o n e s1 hP h,
    fun r s1 h => favUnique_requestLeaveOp s w u sd ed r s1 hP h,
    fun r s1 h => favUnique_saveRosterOp s w m y asg uid now r s1 hP h,
    fun inv s1 h => favUnique_createInvitationOp env s w em o inv s1 hP h,
    ?_, ?_, ?_⟩
  · intro fav hfav hw
    constructor
    · intro e he
      obtain ⟨hm, hu, hmin⟩ := findOldestEnrollment_spec s u e he
      refine ⟨?_, hm, hu, hmin⟩
      simp only [shiftFavoriteToNext, hfav, hw, beq_self_eq_true, if_true, he]
      exact find?_map_fav s.favorites u e.workspaceId fav hfav
    · intro he
      refine ⟨?_, findOldestEnrollment_none s u he⟩
      simp only [shiftFavoriteToNext, hfav, hw, beq_self_eq_true, if_true, he]
      exact find?_eraseP_none_of_unique s.favorites u hP
  · intro fav hfav
    simp only [autoSetFirstFavorite, hfav]
  · intro hfav
    constructor
    · intro he
      simp only [autoSetFirstFavorite, hfav, he]
    · intro e he
      obtain ⟨hm, hu, hmin⟩ := findOldestEnrollment_spec s u e he
      refine ⟨?_, hm, hu, hmin⟩
      simp only [autoSetFirstFavorite, hfav, he]

/-- Store for the favorite-shift scenario: `u1` favors `w1`, whose
enrollment is already gone, and still holds an enrollment in `w2`. -/
def stC8 : St := { emptySt with
  workspaces := [⟨"w1", "Ward", "own-1", 0⟩, ⟨"w2", "East", "own-1", 1⟩],
  enrollments := [⟨"w2", "u1", 7⟩],
  favorites := [⟨"u1", "w1"⟩],
  nextId := 3 }

/-- Witness for C8: on the concrete store the shift repoints the
favorite to the remaining `w2` enrollment and keeps uniqueness. -/
theorem C8_witness :
    (shiftFavoriteToNext stC8 "u1" "w1").favorites.find?
        (fun f => f.userId == "u1") = some ⟨"u1", "w2"⟩ ∧
    favUnique (shiftFavoriteToNext stC8 "u1" "w1") := by
  have h := C8_favorite_invariant envOwner stC8 "u1" "w1" "t" "o" "q" "m"
    0 0 0 0 0 0 0 [] (by unfold favUnique; decide)
  obtain ⟨-, h2, -, -, -, -, -, -, -, -, -, -, hsh, -, -⟩ := h
  have hx := (hsh ⟨"u1", "w1"⟩ (by decide) rfl).1 ⟨"w2", "u1", 7⟩ (by decide)
  exact ⟨hx.1, h2⟩

end Eduty
